import Mathlib

/-!
Verification of the virtualized grid engine of the `ExcelGrid` component
(src/frontend/src/App.tsx).  The definitions below are a shallow embedding
of the component's state and handlers: machine numbers become `Int`/`Nat`,
the React `useState` fields become a record, each event handler becomes a
pure transition function returning the new state together with the lists of
external-callback invocations it performed, and JavaScript's
`Math.floor`/`Math.ceil` of a quotient become Euclidean division on `Int`
(which floors for positive divisors).
-/

namespace VGrid

/-- Fixed row height in pixels (App.tsx line 829). -/
def CELL_HEIGHT : Int := 25

/-- Default column width in pixels (App.tsx line 830). -/
def DEFAULT_CELL_WIDTH : Int := 100

/-- Minimum column width floor in pixels (App.tsx line 831). -/
def MIN_CELL_WIDTH : Int := 50

/-- Width of the row-header gutter in pixels (App.tsx line 832). -/
def ROW_HEADER_WIDTH : Int := 60

/-- Extra rows/cols rendered outside the viewport (App.tsx line 833). -/
def VISIBLE_BUFFER : Int := 5

/-- `Math.ceil (a / b)` for integer `a` and positive integer `b`. -/
def ceilDiv (a b : Int) : Int := -(-a / b)

/-- Per-column width overrides: the `columnWidths` state object, a partial
map from column index to pixel width. -/
def ColumnWidths : Type := Nat → Option Int

/-- The width used for a column: `columnWidths[col] || DEFAULT_CELL_WIDTH`
(App.tsx lines 860, 887, 925, 1007, 1074, 1113).  JavaScript `||` falls back
to the default both when the entry is missing and when it is `0` (falsy). -/
def widthOf (cw : ColumnWidths) (col : Nat) : Int :=
  match cw col with
  | some w => if w = 0 then DEFAULT_CELL_WIDTH else w
  | none => DEFAULT_CELL_WIDTH

/-- The derived visible index range (App.tsx lines 866-905). -/
structure VisibleRange where
  startRow : Int
  endRow : Int
  startCol : Int
  endCol : Int
deriving DecidableEq

/-- The column half of the `visibleRange` computation: the `for` loop of
App.tsx lines 886-900, iterated over the (remaining) column indices.
State carried: current `startCol`, `endCol`, `accumulatedWidth`,
`startFound`; the loop may `break`, returning the current column index as
`endCol`. -/
def colScanList (cw : ColumnWidths) (x limit : Int) :
    List Nat → Int → Int → Int → Bool → Int × Int
  | [], startCol, endCol, _, _ => (startCol, endCol)
  | col :: rest, startCol, endCol, acc, startFound =>
    let colWidth := widthOf cw col
    let startCol' :=
      if startFound = false ∧ x < acc + colWidth then
        max 0 ((col : Int) - VISIBLE_BUFFER)
      else startCol
    let startFound' :=
      if startFound = false ∧ x < acc + colWidth then true else startFound
    if limit < acc then (startCol', (col : Int))
    else colScanList cw x limit rest startCol' endCol (acc + colWidth) startFound'

/-- The host container's measurement: `scrollContainerRef.current` is `null`
until the container is mounted (`measured = false`), after which its pixel
`clientHeight`/`clientWidth` are read. -/
structure Viewport where
  measured : Bool
  clientHeight : Int
  clientWidth : Int

/-- The scroll offset state `{x, y}` (App.tsx line 841). -/
structure Scroll where
  x : Int
  y : Int

/-- The `visibleRange` memo (App.tsx lines 866-905): fallback fixed range
when the container is unmeasured, otherwise row range by division by
`CELL_HEIGHT` with buffer and clamping, column range by the width scan. -/
def visibleRange (vp : Viewport) (scroll : Scroll) (cw : ColumnWidths)
    (totalRows totalCols : Nat) : VisibleRange :=
  if vp.measured = false then
    ⟨0, 50, 0, 20⟩
  else
    let containerHeight := vp.clientHeight - CELL_HEIGHT
    let containerWidth := vp.clientWidth - ROW_HEADER_WIDTH
    let r := colScanList cw scroll.x
      (scroll.x + containerWidth + VISIBLE_BUFFER * DEFAULT_CELL_WIDTH)
      (List.range totalCols) 0 0 0 false
    { startRow := max 0 (scroll.y / CELL_HEIGHT - VISIBLE_BUFFER)
      endRow := min (totalRows : Int)
        (ceilDiv (scroll.y + containerHeight) CELL_HEIGHT + VISIBLE_BUFFER)
      startCol := r.1
      endCol := if r.2 = 0 then (totalCols : Int) else r.2 }

/-- The cell render loop (App.tsx lines 1151-1159): one descriptor per
`(row, col)` with `startRow ≤ row < endRow`, `startCol ≤ col < endCol`,
row-major.  `Array.from {length := n}` of a negative `n` is empty, matching
`Int.toNat`. -/
def renderedCells (vr : VisibleRange) : List (Int × Int) :=
  (List.range (vr.endRow - vr.startRow).toNat).flatMap fun (i : Nat) =>
    (List.range (vr.endCol - vr.startCol).toNat).map fun (j : Nat) =>
      (vr.startRow + (i : Int), vr.startCol + (j : Int))

/-- The loop body of `getColumnName` (App.tsx lines 908-916): prepend the
character `65 + num % 26` and continue with `⌊num / 26⌋ - 1` while that is
still nonnegative, i.e. while `num ≥ 26`. -/
def getColumnNameAux (num : Nat) (name : String) : String :=
  let name' := String.mk [Char.ofNat (65 + num % 26)] ++ name
  if h : num < 26 then name'
  else getColumnNameAux (num / 26 - 1) name'
termination_by num
decreasing_by
  have h26 : 26 ≤ num := Nat.le_of_not_lt h
  have h1 : 1 ≤ num / 26 := Nat.one_le_div_iff (by norm_num) |>.mpr h26
  have h2 : num / 26 ≤ num := Nat.div_le_self num 26
  omega

/-- `getColumnName` (App.tsx lines 908-916). -/
def getColumnName (index : Nat) : String :=
  getColumnNameAux index ""

/-- `getCellRef` (App.tsx lines 918-920): column label followed by the
decimal rendering of `row + 1`. -/
def getCellRef (row col : Nat) : String :=
  getColumnName col ++ toString (row + 1)

/-- Modelled from the spec: the digit list (most significant first, digits
`1..26`) of the standard bijective base-26 numeral of `m`; empty for `0`.
This is the spec-side definition of "standard spreadsheet base-26 bijective
numbering", to be compared with the source's `getColumnName`. -/
def specDigits : Nat → List Nat
  | 0 => []
  | m + 1 => specDigits (m / 26) ++ [m % 26 + 1]
decreasing_by
  exact Nat.lt_succ_of_le (Nat.div_le_self m 26)

/-- Modelled from the spec: the standard bijective base-26 spreadsheet label
of zero-based column index `n` — the digits of `n + 1` written with
`1 ↦ 'A', …, 26 ↦ 'Z'`. -/
def specColumnLabel (n : Nat) : String :=
  String.mk ((specDigits (n + 1)).map fun d => Char.ofNat (64 + d))

theorem data_mk_append (a : List Char) (s : String) :
    (String.mk a ++ s).data = a ++ s.data := rfl

theorem empty_string_data : ("" : String).data = [] := rfl

theorem getColumnNameAux_spec (num : Nat) : ∀ name : String,
    getColumnNameAux num name =
      String.mk (((specDigits (num + 1)).map fun d => Char.ofNat (64 + d)) ++ name.data) := by
  induction num using Nat.strong_induction_on with
  | _ num ih =>
    intro name
    rw [getColumnNameAux]
    have hdig : specDigits (num + 1) = specDigits (num / 26) ++ [num % 26 + 1] := by
      rw [specDigits]
    have hchar : Char.ofNat (65 + num % 26) = Char.ofNat (64 + (num % 26 + 1)) := by
      rw [show (65 : Nat) + num % 26 = 64 + (num % 26 + 1) by omega]
    by_cases h : num < 26
    · rw [dif_pos h]
      have h0 : num / 26 = 0 := Nat.div_eq_of_lt h
      rw [hdig, h0]
      simp only [specDigits, List.nil_append, List.map_cons, List.map_nil, hchar]
      rfl
    · rw [dif_neg h]
      have h26 : 26 ≤ num := Nat.le_of_not_lt h
      have h1 : 1 ≤ num / 26 := Nat.one_le_div_iff (by norm_num) |>.mpr h26
      have hlt : num / 26 - 1 < num := by
        have := Nat.div_le_self num 26
        omega
      rw [ih (num / 26 - 1) hlt, show num / 26 - 1 + 1 = num / 26 by omega, hdig,
        data_mk_append]
      apply congrArg String.mk
      simp [hchar, List.map_append, List.append_assoc]

/-- The source's column labeller agrees with the spec-side bijective
base-26 labeller at every index. -/
theorem getColumnName_eq_specColumnLabel (n : Nat) :
    getColumnName n = specColumnLabel n := by
  rw [getColumnName, getColumnNameAux_spec, empty_string_data, List.append_nil]
  rfl

/-- A `(row, col)` coordinate pair as used by the handlers. -/
structure CellPos where
  row : Nat
  col : Nat
deriving DecidableEq

/-- The `CellSelection` state (App.tsx lines 818-821): anchor `start` and
most recent drag point `end`. -/
structure CellSelection where
  start : CellPos
  «end» : CellPos
deriving DecidableEq

/-- The `useState` fields of the `ExcelGrid` component that the pointer,
edit and resize handlers read and write (App.tsx lines 836-844), together
with the grid `data` prop as maintained by the parent's `handleCellChange`.

`editValueAtOpen` is not a `useState` field: it models the `editValue`
captured by the `saveEdit` closure that the memoized `handleMouseDown`
invokes.  `handleMouseDown` is memoized with deps
`[editingCell, onSelectionChange]` (App.tsx line 954) and
`onSelectionChange` is identity-stable, so that closure is refreshed
exactly when `editingCell` changes; `editValueAtOpen` is therefore updated
by exactly those transitions that set `editingCell`. -/
structure GridState where
  data : List (List String)
  columnWidths : ColumnWidths
  selection : Option CellSelection
  isSelecting : Bool
  editingCell : Option CellPos
  editValue : String
  editValueAtOpen : String
  resizingColumn : Option Nat
  resizeStartX : Int
  resizeStartWidth : Int

/-- `saveEdit` (App.tsx lines 984-990) as invoked fresh (its memoization
deps are `[editingCell, editValue, onCellChange]`, so the Enter and blur
paths always see the current draft): if an edit session is open, invoke
`onCellChange(row, col, editValue)`; in all cases clear `editingCell` and
`editValue`.  The returned list holds the `onCellChange` invocations made
(the parent always supplies the callback, App.tsx line 771).  Since
`editingCell` changes, the closure captured by the memoized
`handleMouseDown` is refreshed with the reset draft. -/
def saveEdit (s : GridState) : GridState × List (Nat × Nat × String) :=
  match s.editingCell with
  | some cell =>
      ({ s with editingCell := none, editValue := "", editValueAtOpen := "" },
       [(cell.row, cell.col, s.editValue)])
  | none => ({ s with editingCell := none, editValue := "", editValueAtOpen := "" }, [])

/-- `handleEditKeyDown` (App.tsx lines 992-999): Enter commits via
`saveEdit`; Escape discards the draft and closes the session; any other key
does nothing. -/
def handleEditKeyDown (key : String) (s : GridState) :
    GridState × List (Nat × Nat × String) :=
  if key = "Enter" then saveEdit s
  else if key = "Escape" then
    ({ s with editingCell := none, editValue := "", editValueAtOpen := "" }, [])
  else (s, [])

/-- `handleMouseDown` (App.tsx lines 940-954): commit any open edit
session, then replace the selection with the single-cell rectangle at the
pressed cell, start a drag, and report the new selection.  Returns the new
state, the `onCellChange` invocations, and the `onSelectionChange`
invocations.

The handler is memoized with deps `[editingCell, onSelectionChange]`
(App.tsx line 954) — `saveEdit` is missing from the deps — so the
`saveEdit` it calls is the closure captured in the render where
`editingCell` last changed, i.e. the render that opened the session.  That
closure's draft is `editValueAtOpen`, not the current `editValue`: typing
recreates `saveEdit` but not `handleMouseDown`.  The selection and
`isSelecting` parts read only handler arguments and in-deps state and are
unaffected. -/
def handleMouseDown (row col : Nat) (s : GridState) :
    GridState × List (Nat × Nat × String) × List CellSelection :=
  let r :=
    match s.editingCell with
    | some cell =>
        ({ s with editingCell := none, editValue := "", editValueAtOpen := "" },
         [(cell.row, cell.col, s.editValueAtOpen)])
    | none => (s, [])
  let newSelection : CellSelection := ⟨⟨row, col⟩, ⟨row, col⟩⟩
  ({ r.1 with selection := some newSelection, isSelecting := true },
   r.2, [newSelection])

/-- `handleMouseMove` (App.tsx lines 956-968): while a drag is active and a
selection exists, move its `end` corner to the hovered cell and report the
new selection; otherwise do nothing. -/
def handleMouseMove (row col : Nat) (s : GridState) :
    GridState × List CellSelection :=
  match s.isSelecting, s.selection with
  | true, some sel =>
      let newSelection : CellSelection := { sel with «end» := ⟨row, col⟩ }
      ({ s with selection := some newSelection }, [newSelection])
  | _, _ => (s, [])

/-- `handleMouseUp` (App.tsx lines 970-972): stop the drag. -/
def handleMouseUp (s : GridState) : GridState :=
  { s with isSelecting := false }

/-- `handleDoubleClick` (App.tsx lines 975-978): open an edit session at
the cell, capturing its current value (`data[row]?.[col] || ''`).  Both
state updates land in one re-render, and `editingCell` changed, so the
memoized `handleMouseDown` is refreshed with a `saveEdit` closure whose
draft is this captured value (`editValueAtOpen`). -/
def handleDoubleClick (row col : Nat) (s : GridState) : GridState :=
  { s with editingCell := some ⟨row, col⟩,
           editValue := (s.data.getD row []).getD col "",
           editValueAtOpen := (s.data.getD row []).getD col "" }

/-- `handleEditChange` (App.tsx lines 980-982): typing replaces the draft.
`editingCell` does not change, so the memoized `handleMouseDown` — and the
stale `saveEdit` closure it holds — is not refreshed. -/
def handleEditChange (value : String) (s : GridState) : GridState :=
  { s with editValue := value }

/-- `isCellSelected` (App.tsx lines 1045-1054): membership in the
min/max-normalized selection rectangle, inclusive on both ends. -/
def isCellSelected (s : GridState) (row col : Nat) : Bool :=
  match s.selection with
  | none => false
  | some sel =>
      decide (min sel.start.row sel.«end».row ≤ row ∧
        row ≤ max sel.start.row sel.«end».row ∧
        min sel.start.col sel.«end».col ≤ col ∧
        col ≤ max sel.start.col sel.«end».col)

/-- `handleColumnResizeStart` (App.tsx lines 1002-1008): begin a resize
session on a column, capturing the pointer X and the column's current
width. -/
def handleColumnResizeStart (col : Nat) (clientX : Int) (s : GridState) :
    GridState :=
  { s with resizingColumn := some col,
           resizeStartX := clientX,
           resizeStartWidth := widthOf s.columnWidths col }

/-- `handleColumnResize` (App.tsx lines 1010-1019): during a resize
session, store `max MIN_CELL_WIDTH (startWidth + (clientX - startX))` for
the resized column. -/
def handleColumnResize (clientX : Int) (s : GridState) : GridState :=
  match s.resizingColumn with
  | some col =>
      let diff := clientX - s.resizeStartX
      let newWidth := max MIN_CELL_WIDTH (s.resizeStartWidth + diff)
      { s with columnWidths :=
          fun c => if c = col then some newWidth else s.columnWidths c }
  | none => s

/-- `handleColumnResizeEnd` (App.tsx lines 1021-1023): end the resize
session, keeping the last stored width. -/
def handleColumnResizeEnd (s : GridState) : GridState :=
  { s with resizingColumn := none }

/-- The grid-write part of the parent's `handleCellChange` (App.tsx lines
457-465): `sheets[i].data[row][col] = value` on the active sheet's data. -/
def applyCellChange (data : List (List String)) (row col : Nat)
    (value : String) : List (List String) :=
  data.set row ((data.getD row []).set col value)

/-- Apply the parent's grid write for each `onCellChange` invocation a
handler emitted, in order. -/
def commitEffects (data : List (List String))
    (effs : List (Nat × Nat × String)) : List (List String) :=
  effs.foldl (fun d e => applyCellChange d e.1 e.2.1 e.2.2) data

theorem colScanList_spec (cw : ColumnWidths) (x limit : Int) :
    ∀ (l : List Nat) (sc ec acc : Int) (sf : Bool),
      (0 ≤ sc → 0 ≤ (colScanList cw x limit l sc ec acc sf).1) ∧
      (sf = true → (colScanList cw x limit l sc ec acc sf).1 = sc) ∧
      ((colScanList cw x limit l sc ec acc sf).2 = ec ∨
        ∃ c ∈ l, (colScanList cw x limit l sc ec acc sf).2 = (c : Int)) := by
  intro l
  induction l with
  | nil =>
    intro sc ec acc sf
    simp [colScanList]
  | cons col rest ih =>
    intro sc ec acc sf
    by_cases hc : sf = false ∧ x < acc + widthOf cw col
    · by_cases hb : limit < acc
      · simp only [colScanList, if_pos hc, if_pos hb]
        refine ⟨fun _ => le_max_left 0 _, fun hsf => absurd hc.1 (by simp [hsf]),
          Or.inr ⟨col, List.mem_cons_self col rest, rfl⟩⟩
      · simp only [colScanList, if_pos hc, if_neg hb]
        refine ⟨fun _ => (ih _ ec _ true).1 (le_max_left 0 _),
          fun hsf => absurd hc.1 (by simp [hsf]), ?_⟩
        rcases (ih _ ec _ true).2.2 with h | ⟨c, hcr, hce⟩
        · exact Or.inl h
        · exact Or.inr ⟨c, List.mem_cons_of_mem col hcr, hce⟩
    · by_cases hb : limit < acc
      · simp only [colScanList, if_neg hc, if_pos hb]
        exact ⟨fun h => h, fun _ => trivial,
          Or.inr ⟨col, List.mem_cons_self col rest, rfl⟩⟩
      · simp only [colScanList, if_neg hc, if_neg hb]
        refine ⟨fun h => (ih sc ec _ sf).1 h, fun hsf => (ih sc ec _ sf).2.1 hsf, ?_⟩
        rcases (ih sc ec _ sf).2.2 with h | ⟨c, hcr, hce⟩
        · exact Or.inl h
        · exact Or.inr ⟨c, List.mem_cons_of_mem col hcr, hce⟩

theorem mem_renderedCells {vr : VisibleRange} {p : Int × Int}
    (hp : p ∈ renderedCells vr) :
    vr.startRow ≤ p.1 ∧ p.1 < vr.endRow ∧ vr.startCol ≤ p.2 ∧ p.2 < vr.endCol := by
  rw [renderedCells] at hp
  obtain ⟨i, hi, hp2⟩ := List.mem_flatMap.mp hp
  obtain ⟨j, hj, hpe⟩ := List.mem_map.mp hp2
  rw [List.mem_range] at hi hj
  have h1 : (i : Int) < vr.endRow - vr.startRow := by omega
  have h2 : (j : Int) < vr.endCol - vr.startCol := by omega
  subst hpe
  dsimp only
  refine ⟨by omega, by omega, by omega, by omega⟩

theorem visibleRange_bounds (vp : Viewport) (scroll : Scroll)
    (cw : ColumnWidths) (totalRows totalCols : Nat) (hm : vp.measured = true) :
    0 ≤ (visibleRange vp scroll cw totalRows totalCols).startRow ∧
    (visibleRange vp scroll cw totalRows totalCols).endRow ≤ (totalRows : Int) ∧
    0 ≤ (visibleRange vp scroll cw totalRows totalCols).startCol ∧
    (visibleRange vp scroll cw totalRows totalCols).endCol ≤ (totalCols : Int) := by
  have hspec := colScanList_spec cw scroll.x
    (scroll.x + (vp.clientWidth - ROW_HEADER_WIDTH) +
      VISIBLE_BUFFER * DEFAULT_CELL_WIDTH)
    (List.range totalCols) 0 0 0 false
  rw [visibleRange]
  simp only [hm, Bool.true_eq_false, if_false]
  refine ⟨le_max_left 0 _, min_le_left _ _, hspec.1 le_rfl, ?_⟩
  rcases hspec.2.2 with h | ⟨c, hcr, hce⟩
  · simp [h]
  · rw [List.mem_range] at hcr
    split
    · exact le_refl _
    · rw [hce]
      exact_mod_cast Nat.le_of_lt hcr

theorem widthOf_ge_min (cw : ColumnWidths)
    (hinv : ∀ c w, cw c = some w → MIN_CELL_WIDTH ≤ w) (col : Nat) :
    MIN_CELL_WIDTH ≤ widthOf cw col := by
  cases hcw : cw col with
  | none => norm_num [widthOf, hcw, DEFAULT_CELL_WIDTH, MIN_CELL_WIDTH]
  | some w =>
    have hw := hinv col w hcw
    have h0 : w ≠ 0 := by
      intro h
      rw [h] at hw
      norm_num [MIN_CELL_WIDTH] at hw
    simpa [widthOf, hcw, h0] using hw

theorem applyCellChange_getD (data : List (List String)) (r c : Nat)
    (v : String) (hr : r < data.length) (hc : c < (data.getD r []).length) :
    ((applyCellChange data r c v).getD r []).getD c "" = v := by
  rw [applyCellChange, List.getD_eq_getElem?_getD, List.getD_eq_getElem?_getD,
    List.getElem?_set_eq_of_lt _ hr, Option.getD_some,
    List.getElem?_set_eq_of_lt _ hc, Option.getD_some]

theorem saveEdit_spec (s : GridState) (r c : Nat) (v : String)
    (hedit : s.editingCell = some ⟨r, c⟩) (hval : s.editValue = v)
    (hr : r < s.data.length) (hc : c < (s.data.getD r []).length) :
    (saveEdit s).2 = [(r, c, v)] ∧
    ((commitEffects s.data (saveEdit s).2).getD r []).getD c "" = v ∧
    (saveEdit s).1.editingCell = none ∧
    (saveEdit s).1.editValue = "" := by
  have heffs : (saveEdit s).2 = [(r, c, v)] := by
    simp [saveEdit, hedit, hval]
  refine ⟨heffs, ?_, by simp [saveEdit, hedit], by simp [saveEdit, hedit]⟩
  rw [heffs]
  exact applyCellChange_getD s.data r c v hr hc

/-- C1: for every zero-based column index, `getColumnName` returns the
standard bijective base-26 spreadsheet label (0 ↦ "A", 25 ↦ "Z", 26 ↦ "AA",
701 ↦ "ZZ", 702 ↦ "AAA"), and `getCellRef row col` is that label followed
by the decimal string of `row + 1`. -/
theorem C1_cell_reference_labels :
    (∀ n : Nat, getColumnName n = specColumnLabel n) ∧
    getColumnName 0 = "A" ∧ getColumnName 25 = "Z" ∧
    getColumnName 26 = "AA" ∧ getColumnName 701 = "ZZ" ∧
    getColumnName 702 = "AAA" ∧
    (∀ row col : Nat,
      getCellRef row col = specColumnLabel col ++ toString (row + 1)) := by
  refine ⟨getColumnName_eq_specColumnLabel, ?_, ?_, ?_, ?_, ?_, fun row col => ?_⟩
  · simp [getColumnName, getColumnNameAux]
  · simp [getColumnName, getColumnNameAux]
  · simp [getColumnName, getColumnNameAux]
  · simp [getColumnName, getColumnNameAux]
  · simp [getColumnName, getColumnNameAux]
  · rw [getCellRef, getColumnName_eq_specColumnLabel]

/-- C6: committing an open edit session at `(r, c)` with draft `v` (Enter
key, which runs `saveEdit`, exactly as blur does) invokes `onCellChange`
exactly once with `(r, c, v)`, the parent's callback handler writes `v`
into the grid at `(r, c)`, and the edit controller returns to idle. -/
theorem C6_commit_roundtrip (s : GridState) (r c : Nat) (v : String)
    (hedit : s.editingCell = some ⟨r, c⟩) (hval : s.editValue = v)
    (hr : r < s.data.length) (hc : c < (s.data.getD r []).length) :
    (saveEdit s).2 = [(r, c, v)] ∧
    ((commitEffects s.data (saveEdit s).2).getD r []).getD c "" = v ∧
    (saveEdit s).1.editingCell = none ∧
    (saveEdit s).1.editValue = "" ∧
    handleEditKeyDown "Enter" s = saveEdit s := by
  have h := saveEdit_spec s r c v hedit hval hr hc
  exact ⟨h.1, h.2.1, h.2.2.1, h.2.2.2, by simp [handleEditKeyDown]⟩

/-- Concrete witness state for the commit round-trip: grid value "10" at
(1,1), open edit session there with draft "20". -/
def c6State : GridState :=
  ⟨[["a", "b"], ["x", "10"]], fun _ => none, none, false, some ⟨1, 1⟩, "20",
    "10", none, 0, 0⟩

theorem C6_commit_roundtrip_witness :
    c6State.editingCell = some ⟨1, 1⟩ ∧ c6State.editValue = "20" ∧
    1 < c6State.data.length ∧ 1 < (c6State.data.getD 1 []).length ∧
    ((saveEdit c6State).2 = [(1, 1, "20")] ∧
      ((commitEffects c6State.data (saveEdit c6State).2).getD 1 []).getD 1 "" = "20" ∧
      (saveEdit c6State).1.editingCell = none ∧
      (saveEdit c6State).1.editValue = "" ∧
      handleEditKeyDown "Enter" c6State = saveEdit c6State) :=
  ⟨rfl, rfl, by decide, by decide,
    C6_commit_roundtrip c6State 1 1 "20" rfl rfl (by decide) (by decide)⟩

/-- C7: cancelling an open edit session with Escape discards the draft,
leaves the grid untouched, invokes no mutation callback, and returns the
controller to idle. -/
theorem C7_cancel_noop (s : GridState) (_hedit : s.editingCell.isSome = true) :
    (handleEditKeyDown "Escape" s).1.data = s.data ∧
    (handleEditKeyDown "Escape" s).2 = [] ∧
    (handleEditKeyDown "Escape" s).1.editingCell = none ∧
    (handleEditKeyDown "Escape" s).1.editValue = "" := by
  refine ⟨?_, ?_, ?_, ?_⟩ <;> simp [handleEditKeyDown]

/-- Concrete witness state for edit cancel: grid value "10" at (1,1), open
edit session there with draft "20". -/
def c7State : GridState :=
  ⟨[["a", "b"], ["x", "10"]], fun _ => none, none, false, some ⟨1, 1⟩, "20",
    "10", none, 0, 0⟩

theorem C7_cancel_noop_witness :
    c7State.editingCell.isSome = true ∧
    ((handleEditKeyDown "Escape" c7State).1.data = c7State.data ∧
      (handleEditKeyDown "Escape" c7State).2 = [] ∧
      (handleEditKeyDown "Escape" c7State).1.editingCell = none ∧
      (handleEditKeyDown "Escape" c7State).1.editValue = "") :=
  ⟨rfl, C7_cancel_noop c7State rfl⟩

/-- C8: a resize step stores `max MIN_CELL_WIDTH (startWidth + diff)` for
the resized column, and the invariant that every stored width is at least
`MIN_CELL_WIDTH` is preserved. -/
theorem C8_resize_clamps (s : GridState) (clientX : Int) (col : Nat)
    (hcol : s.resizingColumn = some col)
    (hinv : ∀ c w, s.columnWidths c = some w → MIN_CELL_WIDTH ≤ w) :
    (handleColumnResize clientX s).columnWidths col =
      some (max MIN_CELL_WIDTH (s.resizeStartWidth + (clientX - s.resizeStartX))) ∧
    ∀ c w, (handleColumnResize clientX s).columnWidths c = some w →
      MIN_CELL_WIDTH ≤ w := by
  constructor
  · simp [handleColumnResize, hcol]
  · intro c w hw
    simp only [handleColumnResize, hcol] at hw
    by_cases hcc : c = col
    · rw [if_pos hcc] at hw
      rw [← Option.some.inj hw]
      exact le_max_left _ _
    · rw [if_neg hcc] at hw
      exact hinv c w hw

/-- Concrete witness state for column resize: a resize session on column 3
that started at width 100 and pointer X 0. -/
def c8State : GridState :=
  ⟨[], fun _ => none, none, false, none, "", "", some 3, 0, 100⟩

theorem C8_resize_clamps_witness :
    c8State.resizingColumn = some 3 ∧
    ((handleColumnResize (-100) c8State).columnWidths 3 =
        some (max MIN_CELL_WIDTH (c8State.resizeStartWidth + (-100 - c8State.resizeStartX))) ∧
      ∀ c w, (handleColumnResize (-100) c8State).columnWidths c = some w →
        MIN_CELL_WIDTH ≤ w) :=
  ⟨rfl, C8_resize_clamps c8State (-100) 3 rfl (by intro c w h; simp [c8State] at h)⟩

/-- C9: the selection-membership predicate is symmetric in anchor and
focus: pressing at `a` then dragging to `b` selects exactly the same cells
as pressing at `b` then dragging to `a`, from any starting state. -/
theorem C9_selection_symmetric (s : GridState) (a b q : CellPos) :
    isCellSelected
      (handleMouseMove b.row b.col (handleMouseDown a.row a.col s).1).1 q.row q.col =
    isCellSelected
      (handleMouseMove a.row a.col (handleMouseDown b.row b.col s).1).1 q.row q.col := by
  simp only [handleMouseDown, handleMouseMove, isCellSelected]
  rw [decide_eq_decide]
  omega

/-- C10 (amended): a pointer-down at `(r1, c1)` while an edit session is
open at `(r0, c0)` commits that session with the draft value as it was
when the session opened — the memoized handler's stale `saveEdit` closure
(deps `[editingCell, onSelectionChange]`, App.tsx line 954) fires
`onCellChange` exactly once with `(r0, c0, editValueAtOpen)`, not with the
current draft, and the parent's handler writes that value into the grid at
`(r0, c0)` — and then replaces the selection with the single-cell
rectangle at `(r1, c1)`, leaving no session open. -/
theorem C10_mousedown_commits_stale (s : GridState) (r0 c0 r1 c1 : Nat) (v : String)
    (hedit : s.editingCell = some ⟨r0, c0⟩) (hval : s.editValueAtOpen = v)
    (hr : r0 < s.data.length) (hc : c0 < (s.data.getD r0 []).length) :
    (handleMouseDown r1 c1 s).2.1 = [(r0, c0, v)] ∧
    ((commitEffects s.data (handleMouseDown r1 c1 s).2.1).getD r0 []).getD c0 "" = v ∧
    (handleMouseDown r1 c1 s).1.selection = some ⟨⟨r1, c1⟩, ⟨r1, c1⟩⟩ ∧
    (handleMouseDown r1 c1 s).1.editingCell = none ∧
    (handleMouseDown r1 c1 s).2.2 = [⟨⟨r1, c1⟩, ⟨r1, c1⟩⟩] := by
  have h1 : (handleMouseDown r1 c1 s).2.1 = [(r0, c0, v)] := by
    simp [handleMouseDown, hedit, hval]
  refine ⟨h1, ?_, by simp [handleMouseDown], by simp [handleMouseDown, hedit],
    by simp [handleMouseDown]⟩
  rw [h1]
  exact applyCellChange_getD s.data r0 c0 v hr hc

/-- Idle base state over a 2×2 grid holding "10" at (1,1). -/
def c10Base : GridState :=
  ⟨[["a", "b"], ["x", "10"]], fun _ => none, some ⟨⟨1, 1⟩, ⟨1, 1⟩⟩, false,
    none, "", "", none, 0, 0⟩

/-- Reachable scenario state: double-click on (1,1) opens an edit session
capturing "10", then typing replaces the draft with "20".  The memoized
`handleMouseDown` still holds the `saveEdit` closure captured at open. -/
def c10Open : GridState :=
  handleEditChange "20" (handleDoubleClick 1 1 c10Base)

/-- With the session opened over "10" at (1,1) and the draft then typed to
"20", a pointer-down on another cell fires `onCellChange` once with the
stale "10", not the current draft "20": the original C10 claim fails on
the code. -/
theorem C10_counterexample :
    c10Open.editingCell = some ⟨1, 1⟩ ∧ c10Open.editValue = "20" ∧
    (handleMouseDown 0 0 c10Open).2.1 = [(1, 1, "10")] ∧
    (handleMouseDown 0 0 c10Open).2.1 ≠ [(1, 1, "20")] := by
  refine ⟨rfl, rfl, ?_, ?_⟩ <;> decide

theorem C10_mousedown_commits_stale_witness :
    c10Open.editingCell = some ⟨1, 1⟩ ∧ c10Open.editValueAtOpen = "10" ∧
    1 < c10Open.data.length ∧ 1 < (c10Open.data.getD 1 []).length ∧
    ((handleMouseDown 0 0 c10Open).2.1 = [(1, 1, "10")] ∧
      ((commitEffects c10Open.data (handleMouseDown 0 0 c10Open).2.1).getD 1 []).getD 1 "" = "10" ∧
      (handleMouseDown 0 0 c10Open).1.selection = some ⟨⟨0, 0⟩, ⟨0, 0⟩⟩ ∧
      (handleMouseDown 0 0 c10Open).1.editingCell = none ∧
      (handleMouseDown 0 0 c10Open).2.2 = [⟨⟨0, 0⟩, ⟨0, 0⟩⟩]) :=
  ⟨by decide, by decide, by decide, by decide,
    C10_mousedown_commits_stale c10Open 1 1 0 0 "10" (by decide) (by decide)
      (by decide) (by decide)⟩

/-- C2 (amended): once the container has been measured, every rendered
cell descriptor lies inside the computed VisibleRange and inside the grid
bounds `[0, totalRows) × [0, totalCols)`. -/
theorem C2_render_bounds (vp : Viewport) (scroll : Scroll) (cw : ColumnWidths)
    (totalRows totalCols : Nat) (hm : vp.measured = true) (p : Int × Int)
    (hp : p ∈ renderedCells (visibleRange vp scroll cw totalRows totalCols)) :
    (visibleRange vp scroll cw totalRows totalCols).startRow ≤ p.1 ∧
    p.1 < (visibleRange vp scroll cw totalRows totalCols).endRow ∧
    (visibleRange vp scroll cw totalRows totalCols).startCol ≤ p.2 ∧
    p.2 < (visibleRange vp scroll cw totalRows totalCols).endCol ∧
    0 ≤ p.1 ∧ p.1 < (totalRows : Int) ∧ 0 ≤ p.2 ∧ p.2 < (totalCols : Int) := by
  have h1 := mem_renderedCells hp
  have h2 := visibleRange_bounds vp scroll cw totalRows totalCols hm
  exact ⟨h1.1, h1.2.1, h1.2.2.1, h1.2.2.2,
    le_trans h2.1 h1.1, lt_of_lt_of_le h1.2.1 h2.2.1,
    le_trans h2.2.2.1 h1.2.2.1, lt_of_lt_of_le h1.2.2.2 h2.2.2.2⟩

theorem C2_render_bounds_witness :
    (⟨true, 100, 100⟩ : Viewport).measured = true ∧
    ((0 : Int), (0 : Int)) ∈
      renderedCells (visibleRange ⟨true, 100, 100⟩ ⟨0, 0⟩ (fun _ => none) 3 2) ∧
    ((visibleRange ⟨true, 100, 100⟩ ⟨0, 0⟩ (fun _ => none) 3 2).startRow ≤ 0 ∧
      (0 : Int) < (visibleRange ⟨true, 100, 100⟩ ⟨0, 0⟩ (fun _ => none) 3 2).endRow ∧
      (visibleRange ⟨true, 100, 100⟩ ⟨0, 0⟩ (fun _ => none) 3 2).startCol ≤ 0 ∧
      (0 : Int) < (visibleRange ⟨true, 100, 100⟩ ⟨0, 0⟩ (fun _ => none) 3 2).endCol ∧
      (0 : Int) ≤ 0 ∧ (0 : Int) < ((3 : Nat) : Int) ∧
      (0 : Int) ≤ 0 ∧ (0 : Int) < ((2 : Nat) : Int)) :=
  ⟨rfl, by decide,
    C2_render_bounds ⟨true, 100, 100⟩ ⟨0, 0⟩ (fun _ => none) 3 2 rfl
      ((0 : Int), (0 : Int)) (by decide)⟩

/-- With a 1×1 grid and the container not yet measured, the fallback range
(0..50)×(0..20) makes the render loop emit a descriptor for cell (1, 0),
whose row index 1 is outside the grid bound totalRows = 1: the original C2
claim fails in the unmeasured initial state. -/
theorem C2_counterexample :
    (((1 : Int), (0 : Int)) ∈
      renderedCells (visibleRange ⟨false, 0, 0⟩ ⟨0, 0⟩ (fun _ => none) 1 1)) ∧
    ¬ ((1 : Int) < ((1 : Nat) : Int)) := by
  constructor
  · decide
  · decide

/-- C3 (amended): while an edit session is open and no drag is active
(`isSelecting = false`, the configuration reachable while editing, since
the pointer-up ending the selecting drag precedes any double click),
pointer-move over another cell leaves the state unchanged and reports no
selection change; pointer-down, however, does change the selection: it
replaces it with the single-cell rectangle at the pressed cell. -/
theorem C3_edit_pointer_exclusivity (s : GridState) (r c : Nat)
    (_hedit : s.editingCell.isSome = true) (hsel : s.isSelecting = false) :
    (handleMouseMove r c s).1 = s ∧
    (handleMouseMove r c s).2 = [] ∧
    (handleMouseDown r c s).1.selection = some ⟨⟨r, c⟩, ⟨r, c⟩⟩ := by
  refine ⟨?_, ?_, by simp [handleMouseDown]⟩ <;> simp [handleMouseMove, hsel]

/-- Reachable state with an open edit session at (0,0): selection is the
single cell (0,0), no drag active, draft "10". -/
def c3State : GridState :=
  ⟨[["10", "b"], ["c", "d"]], fun _ => none, some ⟨⟨0, 0⟩, ⟨0, 0⟩⟩, false,
    some ⟨0, 0⟩, "10", "10", none, 0, 0⟩

/-- A pointer-down on cell (1,1) while the edit session at (0,0) is open
does change the selection, refuting the original C3 claim. -/
theorem C3_counterexample :
    c3State.editingCell.isSome = true ∧
    (handleMouseDown 1 1 c3State).1.selection ≠ c3State.selection := by
  refine ⟨rfl, ?_⟩
  decide

theorem C3_edit_pointer_exclusivity_witness :
    c3State.editingCell.isSome = true ∧ c3State.isSelecting = false ∧
    ((handleMouseMove 1 1 c3State).1 = c3State ∧
      (handleMouseMove 1 1 c3State).2 = [] ∧
      (handleMouseDown 1 1 c3State).1.selection = some ⟨⟨1, 1⟩, ⟨1, 1⟩⟩) :=
  ⟨rfl, rfl, C3_edit_pointer_exclusivity c3State 1 1 rfl rfl⟩

theorem colScanList_zero_x (cw : ColumnWidths) (limit : Int)
    (hL : ¬ limit < 0) (k : Nat) (hpos : 0 < widthOf cw 0) :
    (colScanList cw 0 limit (List.range (k + 1)) 0 0 0 false).1 = 0 ∧
    ((colScanList cw 0 limit (List.range (k + 1)) 0 0 0 false).2 = 0 ∨
      1 ≤ (colScanList cw 0 limit (List.range (k + 1)) 0 0 0 false).2) := by
  have hc : True ∧ (0 : Int) < 0 + widthOf cw 0 := ⟨trivial, by omega⟩
  rw [List.range_succ_eq_map]
  simp only [colScanList, if_neg hL, if_pos hc]
  constructor
  · rw [(colScanList_spec cw 0 limit (List.map Nat.succ (List.range k))
      _ 0 (0 + widthOf cw 0) true).2.1 rfl]
    decide
  · rcases (colScanList_spec cw 0 limit (List.map Nat.succ (List.range k))
        (max 0 (((0 : Nat) : Int) - VISIBLE_BUFFER)) 0 (0 + widthOf cw 0) true).2.2 with
      h | ⟨c, hcm, hce⟩
    · exact Or.inl h
    · obtain ⟨m, _, rfl⟩ := List.mem_map.mp hcm
      right
      rw [hce]
      exact_mod_cast Nat.succ_le_succ (Nat.zero_le m)

/-- C4 (amended): a zero-sized measured container does not yield an empty
VisibleRange.  At scroll (0,0), over a nonempty grid whose stored column
widths respect the minimum floor, the buffer keeps rows and columns
visible: the row range is exactly `[0, min totalRows 4)` and both the row
range and the column range are nonempty. -/
theorem C4_zero_container (vp : Viewport) (cw : ColumnWidths)
    (totalRows totalCols : Nat) (hm : vp.measured = true)
    (hh : vp.clientHeight = 0) (hw : vp.clientWidth = 0)
    (hinv : ∀ c w, cw c = some w → MIN_CELL_WIDTH ≤ w)
    (hrows : 0 < totalRows) (hcols : 0 < totalCols) :
    (visibleRange vp ⟨0, 0⟩ cw totalRows totalCols).startRow = 0 ∧
    (visibleRange vp ⟨0, 0⟩ cw totalRows totalCols).endRow = min (totalRows : Int) 4 ∧
    (visibleRange vp ⟨0, 0⟩ cw totalRows totalCols).startCol = 0 ∧
    0 < (visibleRange vp ⟨0, 0⟩ cw totalRows totalCols).endRow ∧
    0 < (visibleRange vp ⟨0, 0⟩ cw totalRows totalCols).endCol := by
  have hwidth := widthOf_ge_min cw hinv 0
  have hpos : (0 : Int) < widthOf cw 0 := by
    have : (50 : Int) ≤ widthOf cw 0 := by
      rw [MIN_CELL_WIDTH] at hwidth
      exact hwidth
    omega
  cases totalCols with
  | zero => exact absurd hcols (by norm_num)
  | succ k =>
    rw [visibleRange]
    simp only [hm, Bool.true_eq_false, if_false, hh, hw]
    have hL : ¬ ((0 : Int) + ((0 : Int) - ROW_HEADER_WIDTH) +
        VISIBLE_BUFFER * DEFAULT_CELL_WIDTH < 0) := by
      norm_num [ROW_HEADER_WIDTH, VISIBLE_BUFFER, DEFAULT_CELL_WIDTH]
    have hscan := colScanList_zero_x cw
      ((0 : Int) + ((0 : Int) - ROW_HEADER_WIDTH) +
        VISIBLE_BUFFER * DEFAULT_CELL_WIDTH) hL k hpos
    have h4 : ceilDiv ((0 : Int) + ((0 : Int) - CELL_HEIGHT)) CELL_HEIGHT +
        VISIBLE_BUFFER = 4 := by decide
    refine ⟨by decide, ?_, hscan.1, ?_, ?_⟩
    · rw [h4]
    · rw [h4]
      refine lt_min_iff.mpr ⟨?_, by norm_num⟩
      exact_mod_cast hrows
    · rcases hscan.2 with h | h
      · rw [if_pos h]
        exact_mod_cast Nat.succ_pos k
      · rw [if_neg (by omega : ¬ (colScanList cw 0
          ((0 : Int) + ((0 : Int) - ROW_HEADER_WIDTH) +
            VISIBLE_BUFFER * DEFAULT_CELL_WIDTH)
          (List.range (k + 1)) 0 0 0 false).2 = 0)]
        omega

/-- Zero-sized measured container over a 10×10 default-width grid at
scroll (0,0): the computed VisibleRange is ⟨0, 4, 0, 5⟩, which is not
empty, refuting the original C4 claim. -/
theorem C4_counterexample :
    (visibleRange ⟨true, 0, 0⟩ ⟨0, 0⟩ (fun _ => none) 10 10) = ⟨0, 4, 0, 5⟩ ∧
    (visibleRange ⟨true, 0, 0⟩ ⟨0, 0⟩ (fun _ => none) 10 10).startRow ≠
      (visibleRange ⟨true, 0, 0⟩ ⟨0, 0⟩ (fun _ => none) 10 10).endRow ∧
    (visibleRange ⟨true, 0, 0⟩ ⟨0, 0⟩ (fun _ => none) 10 10).startCol ≠
      (visibleRange ⟨true, 0, 0⟩ ⟨0, 0⟩ (fun _ => none) 10 10).endCol := by
  refine ⟨?_, ?_, ?_⟩ <;> decide

theorem C4_zero_container_witness :
    (⟨true, 0, 0⟩ : Viewport).measured = true ∧
    (⟨true, 0, 0⟩ : Viewport).clientHeight = 0 ∧
    (⟨true, 0, 0⟩ : Viewport).clientWidth = 0 ∧
    0 < 10 ∧
    ((visibleRange ⟨true, 0, 0⟩ ⟨0, 0⟩ (fun _ => none) 10 10).startRow = 0 ∧
      (visibleRange ⟨true, 0, 0⟩ ⟨0, 0⟩ (fun _ => none) 10 10).endRow =
        min ((10 : Nat) : Int) 4 ∧
      (visibleRange ⟨true, 0, 0⟩ ⟨0, 0⟩ (fun _ => none) 10 10).startCol = 0 ∧
      0 < (visibleRange ⟨true, 0, 0⟩ ⟨0, 0⟩ (fun _ => none) 10 10).endRow ∧
      0 < (visibleRange ⟨true, 0, 0⟩ ⟨0, 0⟩ (fun _ => none) 10 10).endCol) :=
  ⟨rfl, rfl, rfl, by norm_num,
    C4_zero_container ⟨true, 0, 0⟩ (fun _ => none) 10 10 rfl rfl rfl
      (by intro c w h; simp at h) (by norm_num) (by norm_num)⟩

theorem ediv_add_cell_height (y : Int) :
    (y + CELL_HEIGHT) / CELL_HEIGHT = y / CELL_HEIGHT + 1 := by
  rw [show y + CELL_HEIGHT = y + 1 * CELL_HEIGHT by ring]
  exact Int.add_mul_ediv_right _ _ (by norm_num [CELL_HEIGHT])

theorem ceilDiv_add_cell_height (a : Int) :
    ceilDiv (a + CELL_HEIGHT) CELL_HEIGHT = ceilDiv a CELL_HEIGHT + 1 := by
  rw [ceilDiv, ceilDiv]
  rw [show -(a + CELL_HEIGHT) = -a + (-1) * CELL_HEIGHT by ring]
  rw [Int.add_mul_ediv_right _ _ (by norm_num [CELL_HEIGHT] : CELL_HEIGHT ≠ 0)]
  ring

/-- C5 (amended): increasing scrollY by exactly CELL_HEIGHT shifts both
startRow and endRow by exactly 1 provided neither clamp binds: the top
clamp requires `scrollY / CELL_HEIGHT ≥ VISIBLE_BUFFER`, and the bottom
clamp requires the shifted endRow expression to stay ≤ totalRows. -/
theorem C5_unit_row_shift (vp : Viewport) (scroll : Scroll) (cw : ColumnWidths)
    (totalRows totalCols : Nat) (hm : vp.measured = true)
    (hstart : VISIBLE_BUFFER ≤ scroll.y / CELL_HEIGHT)
    (hend : ceilDiv (scroll.y + CELL_HEIGHT + (vp.clientHeight - CELL_HEIGHT))
        CELL_HEIGHT + VISIBLE_BUFFER ≤ (totalRows : Int)) :
    (visibleRange vp ⟨scroll.x, scroll.y + CELL_HEIGHT⟩ cw totalRows totalCols).startRow =
      (visibleRange vp scroll cw totalRows totalCols).startRow + 1 ∧
    (visibleRange vp ⟨scroll.x, scroll.y + CELL_HEIGHT⟩ cw totalRows totalCols).endRow =
      (visibleRange vp scroll cw totalRows totalCols).endRow + 1 := by
  rw [visibleRange, visibleRange]
  simp only [hm, Bool.true_eq_false, if_false]
  constructor
  · rw [ediv_add_cell_height]
    rw [max_eq_right (by omega : (0 : Int) ≤ scroll.y / CELL_HEIGHT + 1 - VISIBLE_BUFFER)]
    rw [max_eq_right (by omega : (0 : Int) ≤ scroll.y / CELL_HEIGHT - VISIBLE_BUFFER)]
    omega
  · have hshift : ceilDiv (scroll.y + CELL_HEIGHT + (vp.clientHeight - CELL_HEIGHT))
        CELL_HEIGHT = ceilDiv (scroll.y + (vp.clientHeight - CELL_HEIGHT)) CELL_HEIGHT + 1 := by
      rw [show scroll.y + CELL_HEIGHT + (vp.clientHeight - CELL_HEIGHT) =
          scroll.y + (vp.clientHeight - CELL_HEIGHT) + CELL_HEIGHT by ring]
      exact ceilDiv_add_cell_height _
    rw [hshift] at hend
    rw [hshift]
    rw [min_eq_right (by omega :
      ceilDiv (scroll.y + (vp.clientHeight - CELL_HEIGHT)) CELL_HEIGHT + 1 +
        VISIBLE_BUFFER ≤ (totalRows : Int))]
    rw [min_eq_right (by omega :
      ceilDiv (scroll.y + (vp.clientHeight - CELL_HEIGHT)) CELL_HEIGHT +
        VISIBLE_BUFFER ≤ (totalRows : Int))]
    omega

/-- At the top of the sheet (scrollY = 0 → 25) the startRow clamp binds:
startRow stays 0 instead of increasing by 1, refuting the original C5
claim. -/
theorem C5_counterexample :
    ¬ ((visibleRange ⟨true, 625, 860⟩ ⟨0, 0 + CELL_HEIGHT⟩ (fun _ => none) 100 1).startRow =
        (visibleRange ⟨true, 625, 860⟩ ⟨0, 0⟩ (fun _ => none) 100 1).startRow + 1) := by
  decide

theorem C5_unit_row_shift_witness :
    VISIBLE_BUFFER ≤ (125 : Int) / CELL_HEIGHT ∧
    ceilDiv ((125 : Int) + CELL_HEIGHT + ((100 : Int) - CELL_HEIGHT)) CELL_HEIGHT +
      VISIBLE_BUFFER ≤ ((20 : Nat) : Int) ∧
    ((visibleRange ⟨true, 100, 860⟩ ⟨0, 125 + CELL_HEIGHT⟩ (fun _ => none) 20 1).startRow =
        (visibleRange ⟨true, 100, 860⟩ ⟨0, 125⟩ (fun _ => none) 20 1).startRow + 1 ∧
      (visibleRange ⟨true, 100, 860⟩ ⟨0, 125 + CELL_HEIGHT⟩ (fun _ => none) 20 1).endRow =
        (visibleRange ⟨true, 100, 860⟩ ⟨0, 125⟩ (fun _ => none) 20 1).endRow + 1) :=
  ⟨by decide, by decide,
    C5_unit_row_shift ⟨true, 100, 860⟩ ⟨0, 125⟩ (fun _ => none) 20 1 rfl
      (by decide) (by decide)⟩

end VGrid
